import Mathlib

/-!
Verification of the ImageChoom core engine: legacy-workflow extraction and
normalization (`imagechoom/workflows.py`), the execution bridge and its log
capture (`imagechoom/executor.py`), the persistent job queue and run history
(`imagechoom/run_queue.py`), the queue dispatcher loop
(`imagechoom_gui/main_window.py`), and prompt generation with a single repair
retry (`imagechoom/promptlab.py`).

Texts are embedded as `List Char`.  Python runtime values appearing in
payload mappings are embedded as `Value`.  Fallible Python code is embedded
with `Option`/`Except`: an `Except.error` models an exception propagating to
the caller.  External collaborators (the ChoomLang runner, the Ollama HTTP
service, the filesystem, `uuid.uuid4`, and `datetime.now`) are passed in as
explicit parameters/oracles.  The embedding covers the fragment of Python the
repository exercises: string payload literal values are strings, integers,
booleans, `None`, lists and string-keyed dicts (float literals, non-string
dict keys and `\uXXXX` string escapes are outside the fragment), `str.strip`
and whitespace classes cover the ASCII whitespace characters, and
`str.splitlines` covers the `\n`, `\r\n` and `\r` line boundaries.
-/

/-- ASCII whitespace recognized by Python `str.strip()` and `\s`. -/
def isPyWs (c : Char) : Bool :=
  c = ' ' ∨ c = '\t' ∨ c = '\n' ∨ c = '\r' ∨ c = '\x0b' ∨ c = '\x0c'

/-- Word character for the regex `\b` boundary: `[A-Za-z0-9_]` (ASCII fragment). -/
def isWordChar (c : Char) : Bool :=
  ('a' ≤ c ∧ c ≤ 'z') ∨ ('A' ≤ c ∧ c ≤ 'Z') ∨ ('0' ≤ c ∧ c ≤ '9') ∨ c = '_'

/-- ASCII decimal digit. -/
def isDigitCh (c : Char) : Bool := '0' ≤ c ∧ c ≤ '9'

/-- Python `str.lstrip()`. -/
def lstripL (s : List Char) : List Char := s.dropWhile isPyWs

/-- Python `str.rstrip()`: drop trailing whitespace. -/
def rstripL : List Char → List Char
  | [] => []
  | c :: cs =>
    match rstripL cs with
    | [] => if isPyWs c then [] else [c]
    | r => c :: r

/-- Python `str.strip()`. -/
def pyStrip (s : List Char) : List Char := rstripL (lstripL s)

/-- Drop the given characters from the left end (for `str.strip("-")`). -/
def lstripCh (t : Char) (s : List Char) : List Char := s.dropWhile (· = t)

/-- Drop the given characters from the right end. -/
def rstripCh (t : Char) : List Char → List Char
  | [] => []
  | c :: cs =>
    match rstripCh t cs with
    | [] => if c = t then [] else [c]
    | r => c :: r

/-- Python `str.strip("-")` specialised to a single strip character. -/
def stripCh (t : Char) (s : List Char) : List Char := rstripCh t (lstripCh t s)

/-- Python `str.startswith`. -/
def startsWithL : List Char → List Char → Bool
  | [], _ => true
  | _ :: _, [] => false
  | p :: ps, c :: cs => p = c ∧ startsWithL ps cs

/-- Worker for `splitlinesL`: `cur` is the current line, reversed. -/
def splitlinesGo (cur : List Char) : List Char → List (List Char)
  | [] => if cur.isEmpty then [] else [cur.reverse]
  | '\r' :: '\n' :: rest => cur.reverse :: splitlinesGo [] rest
  | '\n' :: rest => cur.reverse :: splitlinesGo [] rest
  | '\r' :: rest => cur.reverse :: splitlinesGo [] rest
  | c :: rest => splitlinesGo (c :: cur) rest

/-- Python `str.splitlines()` over the `\n`, `\r\n`, `\r` boundaries:
a trailing line break produces no final empty line. -/
def splitlinesL (s : List Char) : List (List Char) := splitlinesGo [] s

/-- Python substring containment `pat in s`. -/
def containsSub (s pat : List Char) : Bool :=
  match s with
  | [] => startsWithL pat []
  | _ :: rest => startsWithL pat s || containsSub rest pat

/-- Decimal digits of a natural number (Python `str(n)` for `n ≥ 0`). -/
def natToChars (n : Nat) : List Char := Nat.toDigits 10 n

/-- Python `str(i)` for an integer. -/
def intToChars : Int → List Char
  | Int.ofNat n => natToChars n
  | Int.negSucc n => '-' :: natToChars (n + 1)

/-- Python runtime values occurring in payload mappings: the JSON /
`ast.literal_eval` fragment used by the repository (string-keyed dicts;
floats are outside the modelled fragment). -/
inductive Value where
  | str (s : List Char)
  | int (n : Int)
  | bool (b : Bool)
  | null
  | list (items : List Value)
  | dict (entries : List (List Char × Value))

/-- `dict.get`: Python dicts keep the last binding for a repeated key, so the
lookup keeps the last matching entry. -/
def dictGet (d : List (List Char × Value)) (k : List Char) : Option Value :=
  d.foldl (fun acc kv => if kv.1 = k then some kv.2 else acc) none

/-- `dict.get(k, default)`. -/
def dictGetD (d : List (List Char × Value)) (k : List Char) (v : Value) : Value :=
  (dictGet d k).getD v

/-- Python truthiness of a `Value` (`if checkpoint:`). -/
def pyTruthy : Value → Bool
  | .str s => !s.isEmpty
  | .int n => n ≠ 0
  | .bool b => b
  | .null => false
  | .list items => !items.isEmpty
  | .dict entries => !entries.isEmpty

/-- Python `repr` of a string: quote choice and the escapes for the quote,
backslash, and the common control characters (printable-ASCII fragment). -/
def pyStrRepr (s : List Char) : List Char :=
  let q : Char := if s.contains '\'' ∧ ¬ s.contains '"' then '"' else '\''
  let esc : Char → List Char := fun c =>
    if c = '\\' then ['\\', '\\']
    else if c = q then ['\\', q]
    else if c = '\n' then ['\\', 'n']
    else if c = '\r' then ['\\', 'r']
    else if c = '\t' then ['\\', 't']
    else [c]
  q :: (s.flatMap esc) ++ [q]

/-- Recursion tasks for `pyReprGo` (fuel-indexed recursion over the nested
`Value` tree, so that the kernel can evaluate it). -/
inductive ReprTask where
  | one (v : Value)
  | listT (vs : List Value)
  | dictT (es : List (List Char × Value))

/-- Python `repr` on a `Value`, fuel-indexed.  The fuel models Python's
recursion limit: the repository never nests payloads anywhere near it. -/
def pyReprGo : Nat → ReprTask → List Char
  | 0, _ => []
  | fuel + 1, .one v =>
    match v with
    | .str s => pyStrRepr s
    | .int n => intToChars n
    | .bool b => if b then ['T', 'r', 'u', 'e'] else ['F', 'a', 'l', 's', 'e']
    | .null => ['N', 'o', 'n', 'e']
    | .list vs => '[' :: pyReprGo fuel (.listT vs) ++ [']']
    | .dict es => '\x7b' :: pyReprGo fuel (.dictT es) ++ ['\x7d']
  | fuel + 1, .listT vs =>
    match vs with
    | [] => []
    | [v] => pyReprGo fuel (.one v)
    | v :: rest => pyReprGo fuel (.one v) ++ [',', ' '] ++ pyReprGo fuel (.listT rest)
  | fuel + 1, .dictT es =>
    match es with
    | [] => []
    | [(k, v)] => pyStrRepr k ++ [':', ' '] ++ pyReprGo fuel (.one v)
    | (k, v) :: rest =>
      pyStrRepr k ++ [':', ' '] ++ pyReprGo fuel (.one v) ++ [',', ' '] ++
        pyReprGo fuel (.dictT rest)

/-- Python `str(value)`: identity on strings, `repr` otherwise. -/
def pyStr : Value → List Char
  | .str s => s
  | v => pyReprGo 100000 (.one v)

/-- Whitespace skipped between tokens: Python literal mode uses the Python
whitespace class, JSON mode the four JSON whitespace characters. -/
def skipWsM (py : Bool) (s : List Char) : List Char :=
  if py then s.dropWhile isPyWs
  else s.dropWhile (fun c => c = ' ' ∨ c = '\t' ∨ c = '\n' ∨ c = '\r')

/-- Scan a quoted string body (opening quote already consumed) up to the
closing quote `q`, decoding escapes.  In JSON mode an unknown escape or a raw
control character is an error; in Python literal mode an unrecognized escape
keeps its backslash, as the CPython tokenizer does.  Returns the decoded
characters and the rest of the input. -/
def pstrGo (jsonMode : Bool) (q : Char) : List Char → List Char → Option (List Char × List Char)
  | _, [] => none
  | acc, '\\' :: e :: rest =>
    if e = 'n' then pstrGo jsonMode q ('\n' :: acc) rest
    else if e = 't' then pstrGo jsonMode q ('\t' :: acc) rest
    else if e = 'r' then pstrGo jsonMode q ('\r' :: acc) rest
    else if e = 'b' then pstrGo jsonMode q ('\x08' :: acc) rest
    else if e = 'f' then pstrGo jsonMode q ('\x0c' :: acc) rest
    else if e = '\\' then pstrGo jsonMode q ('\\' :: acc) rest
    else if e = '"' then pstrGo jsonMode q ('"' :: acc) rest
    else if e = '\'' ∧ ¬ jsonMode then pstrGo jsonMode q ('\'' :: acc) rest
    else if e = '/' ∧ jsonMode then pstrGo jsonMode q ('/' :: acc) rest
    else if jsonMode then none
    else pstrGo jsonMode q (e :: '\\' :: acc) rest
  | acc, c :: rest =>
    if c = q then some (acc.reverse, rest)
    else if c = '\n' then none
    else if jsonMode ∧ c.val < 32 then none
    else pstrGo jsonMode q (c :: acc) rest

/-- Scan an integer literal: optional sign (Python also allows a unary `+`),
decimal digits, no leading zeros on a multi-digit number. -/
def scanInt (jsonMode : Bool) (s : List Char) : Option (Int × List Char) :=
  let signed : Option (Bool × List Char) :=
    match s with
    | '-' :: r => some (true, r)
    | '+' :: r => if jsonMode then none else some (false, r)
    | _ => some (false, s)
  match signed with
  | none => none
  | some (neg, s1) =>
    let digits := s1.takeWhile isDigitCh
    let rest := s1.dropWhile isDigitCh
    if digits.isEmpty then none
    else if digits.length > 1 ∧ digits.headD '0' = '0' then none
    else
      let n : Nat := digits.foldl (fun a c => a * 10 + (c.toNat - 48)) 0
      some (if neg then -(n : Int) else (n : Int), rest)

/-- A keyword literal (`True`/`true`, ...) must not be followed by a word
character, mirroring how both parsers tokenize. -/
def kwBoundary : List Char → Bool
  | [] => true
  | c :: _ => ¬ isWordChar c

/-- Recursion tasks for the fuel-indexed literal parser `parseCore`:
a value, or a position inside a dict or list body. -/
inductive PTask where
  | pval
  | pdictStart (acc : List (List Char × Value))
  | pdictEntry (acc : List (List Char × Value))
  | pdictSep (acc : List (List Char × Value))
  | pdictComma (acc : List (List Char × Value))
  | plistStart (acc : List Value)
  | plistElem (acc : List Value)
  | plistSep (acc : List Value)
  | plistComma (acc : List Value)

/-- Recursive-descent parser shared by the embedding of `ast.literal_eval`
(`py = true`: `True`/`False`/`None` keywords, single-quoted strings, trailing
commas) and of `json.loads` (`py = false`: `true`/`false`/`null`, strict
commas).  Restricted to the fragment in the file comment (no floats, only
string dict keys). -/
def parseCore (py : Bool) : Nat → PTask → List Char → Option (Value × List Char)
  | 0, _, _ => none
  | fuel + 1, .pval, s0 =>
    let s := skipWsM py s0
    match s with
    | '\x7b' :: rest => parseCore py fuel (.pdictStart []) rest
    | '[' :: rest => parseCore py fuel (.plistStart []) rest
    | '"' :: rest => (pstrGo (!py) '"' [] rest).map (fun kr => (.str kr.1, kr.2))
    | '\'' :: rest =>
      if py then (pstrGo false '\'' [] rest).map (fun kr => (.str kr.1, kr.2)) else none
    | _ =>
      if py ∧ startsWithL "True".data s ∧ kwBoundary (s.drop 4) then some (.bool true, s.drop 4)
      else if py ∧ startsWithL "False".data s ∧ kwBoundary (s.drop 5) then
        some (.bool false, s.drop 5)
      else if py ∧ startsWithL "None".data s ∧ kwBoundary (s.drop 4) then some (.null, s.drop 4)
      else if ¬ py ∧ startsWithL "true".data s ∧ kwBoundary (s.drop 4) then
        some (.bool true, s.drop 4)
      else if ¬ py ∧ startsWithL "false".data s ∧ kwBoundary (s.drop 5) then
        some (.bool false, s.drop 5)
      else if ¬ py ∧ startsWithL "null".data s ∧ kwBoundary (s.drop 4) then
        some (.null, s.drop 4)
      else (scanInt (!py) s).map (fun nr => (.int nr.1, nr.2))
  | fuel + 1, .pdictStart acc, s0 =>
    let s := skipWsM py s0
    match s with
    | '\x7d' :: rest => some (.dict acc.reverse, rest)
    | _ => parseCore py fuel (.pdictEntry acc) s
  | fuel + 1, .pdictEntry acc, s0 =>
    let s := skipWsM py s0
    let key : Option (List Char × List Char) :=
      match s with
      | '"' :: rest => pstrGo (!py) '"' [] rest
      | '\'' :: rest => if py then pstrGo false '\'' [] rest else none
      | _ => none
    match key with
    | none => none
    | some (k, r1) =>
      match skipWsM py r1 with
      | ':' :: r2 =>
        match parseCore py fuel .pval r2 with
        | none => none
        | some (v, r3) => parseCore py fuel (.pdictSep ((k, v) :: acc)) r3
      | _ => none
  | fuel + 1, .pdictSep acc, s0 =>
    let s := skipWsM py s0
    match s with
    | '\x7d' :: rest => some (.dict acc.reverse, rest)
    | ',' :: rest =>
      if py then parseCore py fuel (.pdictComma acc) rest
      else parseCore py fuel (.pdictEntry acc) rest
    | _ => none
  | fuel + 1, .pdictComma acc, s0 =>
    let s := skipWsM py s0
    match s with
    | '\x7d' :: rest => some (.dict acc.reverse, rest)
    | _ => parseCore py fuel (.pdictEntry acc) s
  | fuel + 1, .plistStart acc, s0 =>
    let s := skipWsM py s0
    match s with
    | ']' :: rest => some (.list acc.reverse, rest)
    | _ => parseCore py fuel (.plistElem acc) s
  | fuel + 1, .plistElem acc, s0 =>
    match parseCore py fuel .pval s0 with
    | none => none
    | some (v, r1) => parseCore py fuel (.plistSep (v :: acc)) r1
  | fuel + 1, .plistSep acc, s0 =>
    let s := skipWsM py s0
    match s with
    | ']' :: rest => some (.list acc.reverse, rest)
    | ',' :: rest =>
      if py then parseCore py fuel (.plistComma acc) rest
      else parseCore py fuel (.plistElem acc) rest
    | _ => none
  | fuel + 1, .plistComma acc, s0 =>
    let s := skipWsM py s0
    match s with
    | ']' :: rest => some (.list acc.reverse, rest)
    | _ => parseCore py fuel (.plistElem acc) s

/-- Parse one complete literal: the whole input must be consumed
(`ast.literal_eval` / `json.loads` both reject trailing junk). -/
def literalEvalTop (py : Bool) (s : List Char) : Option Value :=
  match parseCore py (2 * s.length + 16) .pval s with
  | some (v, rest) => if (skipWsM py rest).isEmpty then some v else none
  | none => none

/-- `json.loads` on the modelled fragment; `none` is a `JSONDecodeError`. -/
def jsonLoadsV (s : List Char) : Option Value := literalEvalTop false s

/-- Left `\b` boundary: no preceding character, or a non-word one. -/
def prevBoundary : Option Char → Bool
  | none => true
  | some p => ¬ isWordChar p

/-- Worker for `wordSub`: `prev` is the character before the scan position
(for the left `\b` boundary). -/
def wordSubGo (pat rep : List Char) : Nat → Option Char → List Char → List Char
  | 0, _, s => s
  | fuel + 1, prev, s =>
    match s with
    | [] => []
    | c :: rest =>
      if startsWithL pat s && prevBoundary prev && kwBoundary (s.drop pat.length) then
        rep ++ wordSubGo pat rep fuel rep.getLast? (s.drop pat.length)
      else c :: wordSubGo pat rep fuel (some c) rest

/-- `re.sub(r"\b<pat>\b", rep, s)`: replace each left-to-right,
non-overlapping, word-delimited occurrence of `pat`. -/
def wordSub (pat rep s : List Char) : List Char :=
  wordSubGo pat rep (s.length + 1) none s

/-- `_parse_loose_json` (workflows.py:191-199): substitute the word-delimited
tokens `true`/`false`/`null` by `True`/`False`/`None` over the whole payload
expression (including inside quoted strings, which is what C5 is about), run
`ast.literal_eval`, and return the dict entries; a parse error or a non-dict
result yields the empty mapping. -/
def _parse_loose_json (value : List Char) : List (List Char × Value) :=
  let n1 := wordSub "true".data "True".data value
  let n2 := wordSub "false".data "False".data n1
  let n3 := wordSub "null".data "None".data n2
  match literalEvalTop true n3 with
  | some (.dict d) => d
  | _ => []

/-- Split off the leading whitespace run (`\s*` is greedy and deterministic
when the next pattern element is a non-whitespace literal). -/
def munchWs : List Char → List Char × List Char
  | [] => ([], [])
  | c :: rest =>
    if isPyWs c then
      let (w, r) := munchWs rest
      (c :: w, r)
    else ([], c :: rest)

/-- Strip a literal from the front of the input, or fail. -/
def stripLit (lit s : List Char) : Option (List Char) :=
  if startsWithL lit s then some (s.drop lit.length) else none

/-- Index of the last character that is not `'\n'`. -/
def findLastNonNl : List Char → Option Nat
  | [] => none
  | c :: rest =>
    match findLastNonNl rest with
    | some j => some (j + 1)
    | none => if c = '\n' then none else some 0

/-- One match attempt of `^\s*set\s+<var>\s*=\s*(.+)$` (MULTILINE) at the
given suffix of the text; the caller guarantees the line-start anchor.
Returns the offset of capture group 1 within the suffix and its characters.
Only the final `\s*(.+)$` can backtrack: `(.+)` needs at least one
non-newline character on the current line, so when the greedy `\s*` reaches
a newline or the end, the group falls back to the last non-newline
whitespace character. -/
def attemptSet (var s : List Char) : Option (Nat × List Char) :=
  let (w1, s1) := munchWs s
  match stripLit "set".data s1 with
  | none => none
  | some s2 =>
    let (w2, s3) := munchWs s2
    if w2.isEmpty then none
    else
      match stripLit var s3 with
      | none => none
      | some s4 =>
        let (w3, s5) := munchWs s4
        match s5 with
        | '=' :: s6 =>
          let (w4, s7) := munchWs s6
          let off0 := w1.length + 3 + w2.length + var.length + w3.length + 1
          let backtrack : Option (Nat × List Char) :=
            match findLastNonNl w4 with
            | some j => some (off0 + j, ((w4.drop j) ++ s7).takeWhile (· ≠ '\n'))
            | none => none
          match s7 with
          | c :: _ =>
            if c = '\n' then backtrack
            else some (off0 + w4.length, s7.takeWhile (· ≠ '\n'))
          | [] => backtrack
        | _ => none

/-- `re.search` for the pattern above: try every line-start position left to
right (`prev` is the previous character, so a line start is the text start or
a position after `'\n'`); return the absolute index of group 1 and its
characters. -/
def searchSetGo (var : List Char) : Option Char → Nat → List Char → Option (Nat × List Char)
  | _, _, [] => none
  | prev, i, c :: rest =>
    let tryHere : Option (Nat × List Char) :=
      if prev = none ∨ prev = some '\n' then
        match attemptSet var (c :: rest) with
        | some (off, g) => some (i + off, g)
        | none => none
      else none
    match tryHere with
    | some r => some r
    | none => searchSetGo var (some c) (i + 1) rest

/-- Worker for `_extract_braced_block` (workflows.py:161-188): depth counting
that skips braces inside double-quoted strings, honouring backslash escapes;
`acc` holds the consumed characters reversed. -/
def ebbGo : List Char → Int → Bool → Bool → List Char → List Char
  | [], _, _, _, _ => "\x7b\x7d".data
  | c :: rest, depth, inStr, esc, acc =>
    if inStr then
      if esc then ebbGo rest depth true false (c :: acc)
      else if c = '\\' then ebbGo rest depth true true (c :: acc)
      else if c = '"' then ebbGo rest depth false false (c :: acc)
      else ebbGo rest depth true false (c :: acc)
    else if c = '"' then ebbGo rest depth true false (c :: acc)
    else if c = '\x7b' then ebbGo rest (depth + 1) false false (c :: acc)
    else if c = '\x7d' then
      if depth - 1 = 0 then (c :: acc).reverse
      else ebbGo rest (depth - 1) false false (c :: acc)
    else ebbGo rest depth false false (c :: acc)

/-- `_extract_braced_block(text, start)`, embedded on the suffix
`text[start:]`: the balanced brace block from the start (or `"{}"`, written
with escaped braces here, when unbalanced). -/
def _extract_braced_block (s : List Char) : List Char := ebbGo s 0 false false []

/-- `_extract_set_rhs` (workflows.py:148-158): search for the assignment,
strip the captured right-hand side; if it starts with a brace, re-extract the
balanced (possibly multi-line) block from the capture start. -/
def _extract_set_rhs (text varName : List Char) : Option (List Char) :=
  match searchSetGo varName none 0 text with
  | none => none
  | some (k, g) =>
    let rhs := pyStrip g
    if startsWithL "\x7b".data rhs then some (_extract_braced_block (text.drop k))
    else some rhs

/-- Contents of a file in the modelled filesystem: readable UTF-8 text, or a
file whose `read_text` raises (`OSError` or `UnicodeDecodeError`). -/
inductive FileContent where
  | text (content : List Char)
  | unreadable

/-- The filesystem visible to `_resolve_themes_config`: path → contents. -/
def FS := List (List Char × FileContent)

/-- Path lookup; `none` means the path does not exist. -/
def fsLookup (fs : FS) (p : List Char) : Option FileContent :=
  match fs with
  | [] => none
  | (q, c) :: rest => if q = p then some c else fsLookup rest p

/-- Python exceptions that escape the embedded fragment. -/
inductive PyErr where
  | osError
  | typeError
deriving DecidableEq

/-- `_unquote` (workflows.py:215-218). -/
def _unquote (v : List Char) : List Char :=
  if v.length ≥ 2 ∧ v.headD ' ' = '"' ∧ v.getLastD ' ' = '"' then (v.drop 1).dropLast
  else v

/-- The candidate themes path: resolved against the base directory when
relative; `(base_dir / candidate).resolve()` is modelled as concatenation
(no symlink or `..` normalization) and `is_absolute` as the POSIX
leading-slash test. -/
def themesCandidate (base_dir : Option (List Char)) (p : List Char) : List Char :=
  match base_dir with
  | some b => if startsWithL "/".data p then p else b ++ '/' :: p
  | none => p

/-- `_resolve_themes_config` (workflows.py:126-145).  Only
`json.JSONDecodeError` is caught around the read: a file that exists but
cannot be read or decoded propagates its exception. -/
def _resolve_themes_config (text : List Char) (base_dir : Option (List Char)) (fs : FS) :
    Except PyErr (Option (List (List Char × Value))) :=
  match _extract_set_rhs text "input_config".data with
  | none => .ok none
  | some input_config =>
    if (_unquote (pyStrip input_config)).isEmpty then .ok none
    else
      match fsLookup fs (themesCandidate base_dir (_unquote (pyStrip input_config))) with
      | none => .ok none
      | some .unreadable => .error .osError
      | some (.text content) =>
        match jsonLoadsV content with
        | none => .ok none
        | some (.dict d) => .ok (some d)
        | some _ => .ok none

/-- `_extract_payload_dict` (workflows.py:106-123). -/
def _extract_payload_dict (text : List Char) (base_dir : Option (List Char)) (fs : FS) :
    Except PyErr (List (List Char × Value)) :=
  match _extract_set_rhs text "payload".data with
  | none => .ok []
  | some payload_expr0 =>
    if startsWithL "\x7b".data (pyStrip payload_expr0) then
      .ok (_parse_loose_json (pyStrip payload_expr0))
    else if startsWithL "themes.".data (pyStrip payload_expr0) then
      match _resolve_themes_config text base_dir fs with
      | .error e => .error e
      | .ok (some themes) =>
        match dictGet themes ((pyStrip payload_expr0).drop 7) with
        | some (.dict payload) => .ok payload
        | _ => .ok []
      | .ok none => .ok []
    else .ok []

/-- `_extract_model_checkpoint` (workflows.py:202-207): a missing key gives
Python `None`, which is falsy, so only a truthy checkpoint is returned. -/
def _extract_model_checkpoint (payload : List (List Char × Value)) : Option (List Char) :=
  match dictGet payload "override_settings".data with
  | some (.dict os) =>
    match dictGet os "sd_model_checkpoint".data with
    | some ckpt => if pyTruthy ckpt then some (pyStr ckpt) else none
    | none => none
  | _ => none

/-- `_quoted` (workflows.py:210-212): `str()` the value, escape internal
double quotes, and wrap in double quotes. -/
def _quoted (value : Value) : List Char :=
  '"' :: ((pyStr value).flatMap fun c => if c = '"' then ['\\', '"'] else [c]) ++ ['"']

/-- The single canonical tool-call line built by `legacy_to_v1_toolcalls`
(workflows.py:55-70): each field read from the payload with its default. -/
def legacy_to_v1_line (payload : List (List Char × Value)) : List Char :=
  "toolcall tool name=a1111_txt2img id=images prompt=".data ++
    _quoted (dictGetD payload "prompt".data (.str [])) ++
  " negative=".data ++ _quoted (dictGetD payload "negative_prompt".data (.str [])) ++
  " width=".data ++ pyStr (dictGetD payload "width".data (.int 1024)) ++
  " height=".data ++ pyStr (dictGetD payload "height".data (.int 1024)) ++
  " steps=".data ++ pyStr (dictGetD payload "steps".data (.int 30)) ++
  " cfg=".data ++ pyStr (dictGetD payload "cfg_scale".data (.int 7)) ++
  " seed=".data ++ pyStr (dictGetD payload "seed".data (.int (-1))) ++
  " n=".data ++ pyStr (dictGetD payload "batch_size".data (.int 1)) ++
  " sampler=".data ++ _quoted (dictGetD payload "sampler_name".data (.str "Euler a".data))

/-- The full text returned by `legacy_to_v1_toolcalls` (workflows.py:72-76):
the canonical line, plus a trailing comment when a model checkpoint override
is present. -/
def legacy_rendered (payload : List (List Char × Value)) : List Char :=
  match _extract_model_checkpoint payload with
  | some ckpt => legacy_to_v1_line payload ++ '\n' :: "# legacy sd_model_checkpoint=".data ++ ckpt
  | none => legacy_to_v1_line payload

/-- `legacy_to_v1_toolcalls` (workflows.py:51-76). -/
def legacy_to_v1_toolcalls (text : List Char) (base_dir : Option (List Char)) (fs : FS) :
    Except PyErr (List Char) :=
  (_extract_payload_dict text base_dir fs).map legacy_rendered

/-- `_looks_like_v1_workflow` (workflows.py:102-103). -/
def _looks_like_v1_workflow (text : List Char) : Bool :=
  (splitlinesL text).any fun line => startsWithL "toolcall tool".data (pyStrip line)

/-- `NormalizedWorkflow` (workflows.py:22-27). -/
structure NormalizedWorkflow where
  normalized_text : List Char
  warnings : List (List Char)
deriving DecidableEq

/-- `normalize_workflow_for_run` (workflows.py:79-99), embedded over the
already-read source text (`read_workflow_text` is the identity on content);
`base_dir` stands for `path.parent.parent`.  The second payload extraction
inside `legacy_to_v1_toolcalls` is pure and equal to the first, so it is
performed once here. -/
def normalize_workflow_for_run (source : List Char) (base_dir : Option (List Char))
    (fs : FS) : Except PyErr NormalizedWorkflow :=
  if _looks_like_v1_workflow source then .ok ⟨source, []⟩
  else
    let w1 : List (List Char) :=
      if containsSub source "output_file".data then
        ["legacy output_file ignored; using artifacts_dir outputs".data]
      else []
    match _extract_payload_dict source base_dir fs with
    | .error e => .error e
    | .ok payload =>
      let w2 : List (List Char) :=
        match _extract_model_checkpoint payload with
        | some _ =>
          ["legacy override_settings.sd_model_checkpoint preserved as comment in preview".data]
        | none => []
      .ok ⟨legacy_rendered payload, w1 ++ w2⟩

/-- Characters kept by the slug regex class `[a-zA-Z0-9_-]`. -/
def isSlugChar (c : Char) : Bool :=
  ('a' ≤ c ∧ c ≤ 'z') ∨ ('A' ≤ c ∧ c ≤ 'Z') ∨ isDigitCh c ∨ c = '_' ∨ c = '-'

/-- ASCII lower-casing (Python `str.lower()` on the ASCII fragment). -/
def asciiLower (s : List Char) : List Char :=
  s.map fun c => if 'A' ≤ c ∧ c ≤ 'Z' then Char.ofNat (c.toNat + 32) else c

/-- `re.sub(r"[^a-zA-Z0-9_-]+", "-", s)`: each maximal run of characters
outside the class becomes a single hyphen. -/
def slugReplGo : Nat → List Char → List Char
  | 0, s => s
  | _ + 1, [] => []
  | fuel + 1, c :: rest =>
    if isSlugChar c then c :: slugReplGo fuel rest
    else '-' :: slugReplGo fuel (rest.dropWhile fun d => !isSlugChar d)

/-- `_make_run_dir` (executor.py:83-86): slug of the run name, prefixed with
`run-<timestamp>-` under the outputs root.  `Path.expanduser` and the path
join are modelled as identity and `/`-concatenation; `timestamp` stands for
`datetime.now().strftime("%Y%m%d-%H%M%S-%f")`. -/
def _make_run_dir (outputs_root run_name timestamp : List Char) : List Char :=
  let slug0 := stripCh '-' (slugReplGo (run_name.length + 1) (asciiLower (pyStrip run_name)))
  let slug := if slug0.isEmpty then "workflow".data else slug0
  outputs_root ++ '/' :: "run-".data ++ timestamp ++ '-' :: slug

/-- `_buffer_lines` (executor.py:89-91). -/
def _buffer_lines (out : List Char) : List (List Char) :=
  let t := pyStrip out
  if t.isEmpty then [] else splitlinesL t

/-- Code-point lexicographic order on strings (Python `<` on `str`; `sorted`
of the collected PNG paths is modelled at this granularity). -/
def lexLe : List Char → List Char → Bool
  | [], _ => true
  | _ :: _, [] => false
  | a :: as, b :: bs => if a = b then lexLe as bs else decide (a.val < b.val)

/-- Insertion step of `sortLex`. -/
def insertLex (x : List Char) : List (List Char) → List (List Char)
  | [] => [x]
  | y :: ys => if lexLe x y then x :: y :: ys else y :: insertLex x ys

/-- `sorted` on a list of strings. -/
def sortLex : List (List Char) → List (List Char)
  | [] => []
  | x :: xs => insertLex x (sortLex xs)

/-- `RunResult` (executor.py:16-24). -/
structure RunResult where
  run_dir : List Char
  log_lines : List (List Char)
  image_paths : List (List Char)
  success : Bool
  error : Option (List Char)
deriving DecidableEq

/-- `run_workflow` (executor.py:27-72), embedded over the external effects:
`runnerOut` is everything the runner (or the import machinery) wrote to the
captured stdout/stderr, `runnerExc = some msg` means the `try` body raised
with message `msg`, and `pngs` are the PNG files found under the run
directory when they are collected.  The log starts with the `run_dir=`
header; on failure the buffered lines are followed by an `ERROR:` line; on
success with no images a `No PNG artifacts generated.` line is appended. -/
def run_workflow (outputs_root run_name timestamp runnerOut : List Char)
    (runnerExc : Option (List Char)) (pngs : List (List Char)) : RunResult :=
  let run_dir := _make_run_dir outputs_root run_name timestamp
  let logs0 : List (List Char) := ["run_dir=".data ++ run_dir]
  match runnerExc with
  | some e =>
    { run_dir := run_dir,
      log_lines := logs0 ++ _buffer_lines runnerOut ++ ["ERROR: ".data ++ e],
      image_paths := sortLex pngs,
      success := false,
      error := some e }
  | none =>
    let logs1 := logs0 ++ _buffer_lines runnerOut
    let images := sortLex pngs
    { run_dir := run_dir,
      log_lines := if images.isEmpty then logs1 ++ ["No PNG artifacts generated.".data] else logs1,
      image_paths := images,
      success := true,
      error := none }

/-- `PromptSpec` (promptlab.py): the validated prompt specification.  The
Python `sd_params` dict has the seven fixed keys built by
`_validate_prompt_spec`; it is embedded as one field per key.  `_as_int`
accepts Python ints and bools (`isinstance(True, int)` holds) and `_as_float`
accepts ints and bools (proper floats are outside the fragment), so the
numeric fields carry the accepted `Value`. -/
structure PromptSpec where
  positive : List Char
  negative : List Char
  style_tags : List (List Char)
  width : Value
  height : Value
  steps : Value
  cfg : Value
  sampler : List Char
  seed : Value
  n : Value

/-- `_as_int` (promptlab.py:405-408). -/
def _as_int (v : Option Value) (name : List Char) : Except (List Char) Value :=
  match v with
  | some (.int n) => .ok (.int n)
  | some (.bool b) => .ok (.bool b)
  | _ => .error ('`' :: name ++ "` must be an int".data)

/-- `_as_float` (promptlab.py:411-414) on the modelled fragment. -/
def _as_float (v : Option Value) (name : List Char) : Except (List Char) Value :=
  match v with
  | some (.int n) => .ok (.int n)
  | some (.bool b) => .ok (.bool b)
  | _ => .error ('`' :: name ++ "` must be a float".data)

/-- Is the value a Python `str`? -/
def isStrV : Value → Bool
  | .str _ => true
  | _ => false

/-- `_validate_prompt_spec` (promptlab.py:372-402): field checks in source
order, then the normalized parameters in source order (an error message names
the first offending field). -/
def _validate_prompt_spec (payload : List (List Char × Value)) :
    Except (List Char) PromptSpec := do
  let positive ←
    match dictGet payload "positive".data with
    | some (.str p) =>
      if (pyStrip p).isEmpty then Except.error "`positive` must be a non-empty string".data
      else Except.ok p
    | _ => Except.error "`positive` must be a non-empty string".data
  let negative ←
    match dictGet payload "negative".data with
    | some (.str n) => Except.ok n
    | _ => Except.error "`negative` must be a string".data
  let style_tags ←
    match dictGet payload "style_tags".data with
    | some (.list tags) =>
      if tags.all isStrV then
        Except.ok (tags.filterMap fun t => match t with | .str s => some s | _ => none)
      else Except.error "`style_tags` must be a list of strings".data
    | _ => Except.error "`style_tags` must be a list of strings".data
  let sd ←
    match dictGet payload "sd_params".data with
    | some (.dict sd) => Except.ok sd
    | _ => Except.error "`sd_params` must be an object".data
  let width ← _as_int (dictGet sd "width".data) "width".data
  let height ← _as_int (dictGet sd "height".data) "height".data
  let steps ← _as_int (dictGet sd "steps".data) "steps".data
  let cfg ← _as_float (dictGet sd "cfg".data) "cfg".data
  let sampler := pyStr (dictGetD sd "sampler".data (.str "Euler a".data))
  let seed ← _as_int (dictGet sd "seed".data) "seed".data
  let n ← _as_int (dictGet sd "n".data) "n".data
  Except.ok
    { positive := pyStrip positive,
      negative := pyStrip negative,
      style_tags := (style_tags.map pyStrip).filter fun t => !t.isEmpty,
      width := width, height := height, steps := steps, cfg := cfg,
      sampler := sampler, seed := seed, n := n }

/-- `PromptLabResult` (promptlab.py): `raw_json` is always the first model
response (promptlab.py:282), also when the repaired response was accepted. -/
structure PromptLabResult where
  spec : PromptSpec
  raw_json : List (List Char × Value)

/-- `generate_prompt_spec` (promptlab.py:246-282).  `call i` is the `i`-th
invocation of `_call_ollama_generate` (its `Except.error` models the network
or JSON-shape exceptions raised there).  The returned `Nat` counts how many
model calls were made.  Only a `ValueError` from the first validation is
caught and triggers the single repair call; a failure of the second
validation propagates. -/
def generate_prompt_spec
    (call : Nat → Except (List Char) (List (List Char × Value))) :
    Except (List Char) PromptLabResult × Nat :=
  match call 0 with
  | .error e => (.error e, 1)
  | .ok payload =>
    match _validate_prompt_spec payload with
    | .ok validated => (.ok ⟨validated, payload⟩, 1)
    | .error _ =>
      match call 1 with
      | .error e => (.error e, 2)
      | .ok repaired =>
        match _validate_prompt_spec repaired with
        | .ok validated => (.ok ⟨validated, payload⟩, 2)
        | .error e2 => (.error e2, 2)

/-- `", ".join`. -/
def joinSep (sep : List Char) : List (List Char) → List Char
  | [] => []
  | [x] => x
  | x :: rest => x ++ sep ++ joinSep sep rest

/-- Python `int()` on a value accepted by `_as_int` (other shapes cannot
reach the call sites because validation precedes them). -/
def pyIntV : Value → Int
  | .int n => n
  | .bool b => if b then 1 else 0
  | _ => 0

/-- Python `str(float())` on a value accepted by `_as_float`: an integer `n`
prints as `n.0`. -/
def pyFloatRepr : Value → List Char
  | .int n => intToChars n ++ ".0".data
  | .bool b => if b then "1.0".data else "0.0".data
  | _ => []

/-- `promptspec_to_v1_toolcall` (promptlab.py:285-298). -/
def promptspec_to_v1_toolcall (spec : PromptSpec) : List Char :=
  let tagged_positive :=
    if spec.style_tags.isEmpty then spec.positive
    else spec.positive ++ ", ".data ++ joinSep ", ".data spec.style_tags
  "toolcall tool name=a1111_txt2img id=images prompt=".data ++ _quoted (.str tagged_positive) ++
  " negative=".data ++ _quoted (.str spec.negative) ++
  " width=".data ++ intToChars (pyIntV spec.width) ++
  " height=".data ++ intToChars (pyIntV spec.height) ++
  " steps=".data ++ intToChars (pyIntV spec.steps) ++
  " cfg=".data ++ pyFloatRepr spec.cfg ++
  " seed=".data ++ intToChars (pyIntV spec.seed) ++
  " n=".data ++ intToChars (pyIntV spec.n) ++
  " sampler=".data ++ _quoted (.str spec.sampler)

/-- `PromptLabConfig` (run_queue.py:14-21).  `creativity` is a Python float;
floats round-trip exactly through `json.dumps`/`json.loads` in CPython, so
the field is embedded as an opaque `Value` carried through unchanged. -/
structure PromptLabConfig where
  model : List Char
  preset_name : List Char
  preset : List (List Char × Value)
  theme : List Char
  creativity : Value
  timeout_s : Int

/-- `QueueJob` (run_queue.py:24-31). -/
structure QueueJob where
  id : List Char
  job_type : List Char
  created_at : List Char
  run_name : List Char
  normalized_text : Option (List Char) := none
  promptlab : Option PromptLabConfig := none

/-- A queue-file record: the JSON object persisted for one job.  The store
writes the list of these with `json.dumps` and reads it back with
`json.loads`; that round trip is the identity on JSON-safe values, so the
persisted queue is embedded as the list of records themselves. -/
abbrev JobD := List (List Char × Value)

/-- `dataclasses.asdict` on a `PromptLabConfig`, field order as declared. -/
def configToDict (cfg : PromptLabConfig) : List (List Char × Value) :=
  [("model".data, .str cfg.model),
   ("preset_name".data, .str cfg.preset_name),
   ("preset".data, .dict cfg.preset),
   ("theme".data, .str cfg.theme),
   ("creativity".data, cfg.creativity),
   ("timeout_s".data, .int cfg.timeout_s)]

/-- `_job_to_dict` (run_queue.py:147-149): `asdict(job)`, field order as
declared, `None` becoming JSON `null`. -/
def _job_to_dict (job : QueueJob) : JobD :=
  [("id".data, .str job.id),
   ("job_type".data, .str job.job_type),
   ("created_at".data, .str job.created_at),
   ("run_name".data, .str job.run_name),
   ("normalized_text".data, match job.normalized_text with
     | some t => .str t
     | none => .null),
   ("promptlab".data, match job.promptlab with
     | some cfg => .dict (configToDict cfg)
     | none => .null)]

/-- `PromptLabConfig(**promptlab)`: keyword construction succeeds exactly
when the dict's keys are the six field names; the embedding additionally
requires the declared field shapes (an ill-typed value would construct an
ill-typed dataclass in Python, which is outside the modelled fragment and is
mapped to the same `TypeError` as a wrong key set). -/
def buildPromptLabConfig (pd : List (List Char × Value)) : Option PromptLabConfig :=
  let fieldNames : List (List Char) :=
    ["model".data, "preset_name".data, "preset".data, "theme".data,
     "creativity".data, "timeout_s".data]
  if pd.all (fun kv => fieldNames.contains kv.1) then
    match dictGet pd "model".data, dictGet pd "preset_name".data, dictGet pd "preset".data,
        dictGet pd "theme".data, dictGet pd "creativity".data, dictGet pd "timeout_s".data with
    | some (.str m), some (.str pn), some (.dict pr), some (.str th), some cr, some (.int ts) =>
      some ⟨m, pn, pr, th, cr, ts⟩
    | _, _, _, _, _, _ => none
  else none

/-- `_job_from_dict` (run_queue.py:152-162).  `freshId`/`freshTime` stand for
the eagerly evaluated `uuid.uuid4()` / `_now_iso()` defaults (used only when
the key is absent); a `promptlab` dict that cannot be turned into a config
raises `TypeError`. -/
def _job_from_dict (freshId freshTime : List Char) (payload : JobD) :
    Except PyErr QueueJob := do
  let promptlab ←
    match dictGet payload "promptlab".data with
    | some (.dict pd) =>
      match buildPromptLabConfig pd with
      | some cfg => Except.ok (some cfg)
      | none => Except.error PyErr.typeError
    | _ => Except.ok none
  Except.ok
    { id := pyStr (dictGetD payload "id".data (.str freshId)),
      job_type := pyStr (dictGetD payload "job_type".data (.str "RunWorkflowText".data)),
      created_at := pyStr (dictGetD payload "created_at".data (.str freshTime)),
      run_name := pyStr (dictGetD payload "run_name".data (.str "queued-run".data)),
      normalized_text :=
        match dictGet payload "normalized_text".data with
        | some (.str t) => some t
        | _ => none,
      promptlab := promptlab }

/-- `QueueStore._append_job` (run_queue.py:81-86) on the persisted pending
list: append the job's record at the end. -/
def _append_job (queue : List JobD) (job : QueueJob) : List JobD :=
  queue ++ [_job_to_dict job]

/-- `QueueStore.enqueue_runworkflow_text` (run_queue.py:59-68): build the
`RunWorkflowText` job (`uuid`/`now` model the generated id and timestamp)
and append it; the job is returned. -/
def enqueue_runworkflow_text (uuid now run_name normalized_text : List Char)
    (queue : List JobD) : QueueJob × List JobD :=
  let job : QueueJob :=
    { id := uuid, job_type := "RunWorkflowText".data, created_at := now,
      run_name := run_name, normalized_text := some normalized_text, promptlab := none }
  (job, _append_job queue job)

/-- `QueueStore.enqueue_generate_then_run` (run_queue.py:70-79). -/
def enqueue_generate_then_run (uuid now run_name : List Char) (config : PromptLabConfig)
    (queue : List JobD) : QueueJob × List JobD :=
  let job : QueueJob :=
    { id := uuid, job_type := "GenerateThenRun".data, created_at := now,
      run_name := run_name, normalized_text := none, promptlab := some config }
  (job, _append_job queue job)

/-- `QueueStore.pop_next_job` (run_queue.py:95-102): an empty pending list
yields `none`; otherwise the front record is removed, persisted, and decoded
with `_job_from_dict`. -/
def pop_next_job (freshId freshTime : List Char) (queue : List JobD) :
    Except PyErr (Option QueueJob) × List JobD :=
  match queue with
  | [] => (.ok none, [])
  | d :: rest => ((_job_from_dict freshId freshTime d).map some, rest)

/-- `RunRecord` (run_queue.py:34-46). -/
structure RunRecord where
  id : List Char
  timestamp : List Char
  job_type : List Char
  run_name : List Char
  theme : List Char
  status : List Char
  prompt_json : List (List Char × Value)
  normalized_text : List Char
  artifacts_dir : List Char
  image_paths : List (List Char)
  error : Option (List Char)

/-- `QueueStore.append_run` (run_queue.py:109-113) on the persisted history:
one record appended at the end, never rewritten. -/
def append_run (runs : List RunRecord) (record : RunRecord) : List RunRecord :=
  runs ++ [record]

/-- `QueueWorker._run_workflow_text` (main_window.py:146-162): run the stored
canonical text through `run_workflow` and build the record from its result.
`runRes` is the execution oracle: the `RunResult` that `run_workflow` returns
for the given text, or the exception it would itself raise (for example from
`mkdir`); `newId`/`now` model `uuid.uuid4()` and `_now_iso()`. -/
def _run_workflow_text (newId now : List Char) (job : QueueJob)
    (runRes : List Char → Except (List Char) RunResult) :
    Except (List Char) RunRecord :=
  let normalized_text := job.normalized_text.getD []
  (runRes normalized_text).map fun result =>
    { id := newId, timestamp := now, job_type := job.job_type, run_name := job.run_name,
      theme := [],
      status := if result.success then "success".data else "failed".data,
      prompt_json := [], normalized_text := normalized_text,
      artifacts_dir := result.run_dir, image_paths := result.image_paths,
      error := result.error }

/-- `QueueWorker._run_generate_then_run` (main_window.py:164-191): generate a
prompt spec through the Ollama oracle, render it, execute it, and build the
record carrying the theme and the raw prompt JSON. -/
def _run_generate_then_run (newId now : List Char) (job : QueueJob) (cfg : PromptLabConfig)
    (ollama : Nat → Except (List Char) (List (List Char × Value)))
    (runRes : List Char → Except (List Char) RunResult) :
    Except (List Char) RunRecord :=
  match (generate_prompt_spec ollama).1 with
  | .error e => .error e
  | .ok prompt =>
    let normalized_text := promptspec_to_v1_toolcall prompt.spec
    (runRes normalized_text).map fun result =>
      { id := newId, timestamp := now, job_type := job.job_type, run_name := job.run_name,
        theme := cfg.theme,
        status := if result.success then "success".data else "failed".data,
        prompt_json := prompt.raw_json, normalized_text := normalized_text,
        artifacts_dir := result.run_dir, image_paths := result.image_paths,
        error := result.error }

/-- The body of the `try` block of `QueueWorker._execute_job`
(main_window.py:125-130): dispatch by job type; a `GenerateThenRun` job
without a Prompt Lab config raises `ValueError`. -/
def _execute_attempt (newId now : List Char) (job : QueueJob)
    (ollama : Nat → Except (List Char) (List (List Char × Value)))
    (runRes : List Char → Except (List Char) RunResult) :
    Except (List Char) RunRecord :=
  if job.job_type = "GenerateThenRun".data then
    match job.promptlab with
    | none => .error "GenerateThenRun job missing Prompt Lab config".data
    | some cfg => _run_generate_then_run newId now job cfg ollama runRes
  else _run_workflow_text newId now job runRes

/-- `QueueWorker._execute_job` (main_window.py:124-144): any exception from
execution is caught and becomes a `failed` record with the error string. -/
def _execute_job (newId now : List Char) (job : QueueJob)
    (ollama : Nat → Except (List Char) (List (List Char × Value)))
    (runRes : List Char → Except (List Char) RunResult) : RunRecord :=
  match _execute_attempt newId now job ollama runRes with
  | .ok record => record
  | .error e =>
    { id := newId, timestamp := now, job_type := job.job_type, run_name := job.run_name,
      theme := match job.promptlab with | some c => c.theme | none => [],
      status := "failed".data, prompt_json := [],
      normalized_text := job.normalized_text.getD [],
      artifacts_dir := [], image_paths := [], error := some e }

/-- One iteration of the `QueueWorker.run` loop (main_window.py:103-122),
single-consumer view of the store.  `continuousAtTop` is the value of
`_continuous_enabled` read at the top of the loop; `continuousAfterJob` is
its value at the re-read after the record is appended (a pause requested
during execution changes only that second read).  Returns the new pending
queue, the new history, and the emitted `queue_status` messages; a paused or
empty iteration leaves queue and history unchanged. -/
def workerIteration (continuousAtTop continuousAfterJob : Bool)
    (ollama : Nat → Except (List Char) (List (List Char × Value)))
    (runRes : List Char → Except (List Char) RunResult)
    (newId now freshId freshTime : List Char)
    (queue : List JobD) (history : List RunRecord) :
    Except PyErr (List JobD × List RunRecord × List (List Char)) :=
  if ¬ continuousAtTop then .ok (queue, history, [])
  else
    match queue with
    | [] => .ok (queue, history, ["Queue idle".data])
    | d :: rest =>
      match _job_from_dict freshId freshTime d with
      | .error e => .error e
      | .ok job =>
        let status1 := "Running ".data ++ job.run_name ++
          " (".data ++ natToChars rest.length ++ " queued)".data
        let record := _execute_job newId now job ollama runRes
        .ok (rest, append_run history record,
          status1 :: (if continuousAfterJob then [] else ["Paused after current job".data]))

/-- Pop `n` times, collecting the decoded results and the final queue. -/
def popTimes (freshId freshTime : List Char) : Nat → List JobD →
    List (Except PyErr (Option QueueJob)) × List JobD
  | 0, q => ([], q)
  | n + 1, q =>
    let pr := pop_next_job freshId freshTime q
    let rest := popTimes freshId freshTime n pr.2
    (pr.1 :: rest.1, rest.2)

/-- Enqueue a list of jobs in order through `_append_job`. -/
def enqueueAll (jobs : List QueueJob) (queue : List JobD) : List JobD :=
  jobs.foldl _append_job queue

/-- Concrete job used to instantiate the C1 theorem's hypotheses. -/
def c1WitnessJob : QueueJob :=
  { id := "id0".data, job_type := "RunWorkflowText".data, created_at := "t0".data,
    run_name := "wf".data, normalized_text := some "toolcall tool".data, promptlab := none }

/-- A filesystem on which every existing file can be read and decoded. -/
def readableFS (fs : FS) : Prop := ∀ p, fsLookup fs p ≠ some FileContent.unreadable

/-- A text with no line-break characters (single physical line). -/
abbrev NoNl (l : List Char) : Prop := ∀ c ∈ l, c ≠ '\n' ∧ c ≠ '\r'

/-- The canonical-line detection predicate of `_looks_like_v1_workflow`,
applied to one line. -/
def isCanonicalLine (l : List Char) : Bool :=
  startsWithL "toolcall tool".data (pyStrip l)

/-- How many physical lines of the text are canonical tool-call lines. -/
def canonicalLineCount (t : List Char) : Nat :=
  (splitlinesL t).countP isCanonicalLine

theorem job_from_to_dict (freshId freshTime : List Char) (j : QueueJob) :
    _job_from_dict freshId freshTime (_job_to_dict j) = .ok j := by
  obtain ⟨id, jt, ca, rn, nt, pl⟩ := j
  cases nt <;> cases pl <;> rfl

theorem enqueueAll_eq (jobs : List QueueJob) (queue : List JobD) :
    enqueueAll jobs queue = queue ++ jobs.map _job_to_dict := by
  induction jobs generalizing queue with
  | nil => simp [enqueueAll]
  | cons j rest ih =>
    simp only [enqueueAll, List.foldl_cons, List.map_cons] at *
    rw [show _append_job queue j = queue ++ [_job_to_dict j] from rfl, ih]
    simp

theorem popTimes_map (freshId freshTime : List Char) (jobs : List QueueJob) :
    popTimes freshId freshTime jobs.length (jobs.map _job_to_dict) =
      (jobs.map fun j => .ok (some j), []) := by
  induction jobs with
  | nil => rfl
  | cons j rest ih =>
    simp [popTimes, pop_next_job, job_from_to_dict, ih, Except.map]

/-- C7: enqueuing `N` jobs into the pending store and popping `N` times
returns exactly those jobs, in submission order (FIFO), leaving the store
empty; popping from an empty store returns "empty" (`none`) without error. -/
theorem c7_fifo_round_trip (freshId freshTime : List Char) (jobs : List QueueJob) :
    popTimes freshId freshTime jobs.length (enqueueAll jobs []) =
      (jobs.map fun j => .ok (some j), []) ∧
    pop_next_job freshId freshTime [] = (.ok none, []) := by
  refine ⟨?_, rfl⟩
  rw [enqueueAll_eq]
  simpa using popTimes_map freshId freshTime jobs

/-- C1: in a continuous iteration, the job at the front of the queue is
popped (the pending length drops by exactly one), exactly one `RunRecord` is
appended to the history before the loop continues — whatever the outcome and
whatever the pause flag does during execution — and when execution raises,
the appended record has `status="failed"` and carries the error string. -/
theorem c1_pop_appends_exactly_one_record
    (continuousAfterJob : Bool)
    (ollama : Nat → Except (List Char) (List (List Char × Value)))
    (runRes : List Char → Except (List Char) RunResult)
    (newId now freshId freshTime : List Char)
    (j : QueueJob) (rest : List JobD) (history : List RunRecord) :
    workerIteration true continuousAfterJob ollama runRes newId now freshId freshTime
        (_job_to_dict j :: rest) history =
      .ok (rest, history ++ [_execute_job newId now j ollama runRes],
        ("Running ".data ++ j.run_name ++ " (".data ++ natToChars rest.length ++
            " queued)".data) ::
          (if continuousAfterJob then [] else ["Paused after current job".data])) ∧
    rest.length + 1 = (_job_to_dict j :: rest).length ∧
    (∀ e, _execute_attempt newId now j ollama runRes = .error e →
      (_execute_job newId now j ollama runRes).status = "failed".data ∧
      (_execute_job newId now j ollama runRes).error = some e) := by
  refine ⟨?_, by simp, ?_⟩
  · simp [workerIteration, job_from_to_dict, append_run]
  · intro e he
    simp [_execute_job, he]

/-- Witness for C1: a `RunWorkflowText` job whose execution raises `boom` is
recorded as failed with that error. -/
theorem c1_pop_appends_exactly_one_record_witness :
    (_execute_job "id1".data "t1".data c1WitnessJob (fun _ => .error "x".data)
        (fun _ => .error "boom".data)).status = "failed".data ∧
    (_execute_job "id1".data "t1".data c1WitnessJob (fun _ => .error "x".data)
        (fun _ => .error "boom".data)).error = some "boom".data :=
  (c1_pop_appends_exactly_one_record true (fun _ => .error "x".data)
    (fun _ => .error "boom".data) "id1".data "t1".data "f1".data "ft1".data
    c1WitnessJob [] []).2.2 "boom".data rfl

/-- C8: the pause flag read after a job completes influences neither the
queue nor the history (a pause requested during execution never interrupts
the in-flight job); a checked-out job is always executed and recorded even
when the pause arrived mid-run; and when the flag is already false at the
top of the loop, nothing is popped and nothing is appended — the flag is
consulted only between jobs. -/
theorem c8_pause_only_observed_between_jobs
    (ollama : Nat → Except (List Char) (List (List Char × Value)))
    (runRes : List Char → Except (List Char) RunResult)
    (newId now freshId freshTime : List Char)
    (j : QueueJob) (rest : List JobD) (history : List RunRecord) :
    (∀ f2 f2' : Bool,
      (workerIteration true f2 ollama runRes newId now freshId freshTime
          (_job_to_dict j :: rest) history).map (fun r => (r.1, r.2.1)) =
      (workerIteration true f2' ollama runRes newId now freshId freshTime
          (_job_to_dict j :: rest) history).map (fun r => (r.1, r.2.1))) ∧
    workerIteration true false ollama runRes newId now freshId freshTime
        (_job_to_dict j :: rest) history =
      .ok (rest, history ++ [_execute_job newId now j ollama runRes],
        [("Running ".data ++ j.run_name ++ " (".data ++ natToChars rest.length ++
            " queued)".data), "Paused after current job".data]) ∧
    (∀ (f2 : Bool) (queue : List JobD) (hist : List RunRecord),
      workerIteration false f2 ollama runRes newId now freshId freshTime queue hist =
        .ok (queue, hist, [])) := by
  refine ⟨?_, ?_, ?_⟩ <;> simp [workerIteration, job_from_to_dict, append_run, Except.map]

/-- C9: prompt generation performs at most two model calls; a first response
that validates is accepted with no repair call; and when both the first and
the repaired response fail validation, generation fails with the second
validation error after exactly two calls. -/
theorem c9_at_most_one_repair (call : Nat → Except (List Char) (List (List Char × Value))) :
    (generate_prompt_spec call).2 ≤ 2 ∧
    (∀ p v, call 0 = .ok p → _validate_prompt_spec p = .ok v →
      generate_prompt_spec call = (.ok ⟨v, p⟩, 1)) ∧
    (∀ p e1 p2 e2, call 0 = .ok p → _validate_prompt_spec p = .error e1 →
      call 1 = .ok p2 → _validate_prompt_spec p2 = .error e2 →
      generate_prompt_spec call = (.error e2, 2)) := by
  refine ⟨?_, ?_, ?_⟩
  · cases h0 : call 0 with
    | error e => simp [generate_prompt_spec, h0]
    | ok p =>
      cases hv : _validate_prompt_spec p with
      | ok v => simp [generate_prompt_spec, h0, hv]
      | error e1 =>
        cases h1 : call 1 with
        | error e => simp [generate_prompt_spec, h0, hv, h1]
        | ok p2 =>
          cases hv2 : _validate_prompt_spec p2 <;>
            simp [generate_prompt_spec, h0, hv, h1, hv2]
  · intro p v h0 hv
    simp [generate_prompt_spec, h0, hv]
  · intro p e1 p2 e2 h0 hv h1 hv2
    simp [generate_prompt_spec, h0, hv, h1, hv2]

/-- Witness for C9: a payload missing `positive` fails validation twice, so
generation returns the validation error after exactly two model calls. -/
theorem c9_at_most_one_repair_witness :
    generate_prompt_spec (fun _ => .ok [("negative".data, Value.str [])]) =
      (.error "`positive` must be a non-empty string".data, 2) :=
  (c9_at_most_one_repair (fun _ => .ok [("negative".data, Value.str [])])).2.2
    [("negative".data, Value.str [])] "`positive` must be a non-empty string".data
    [("negative".data, Value.str [])] "`positive` must be a non-empty string".data
    rfl rfl rfl rfl

/-- C4: any workflow text in which some line, after stripping, starts with
the canonical tool-call token is returned by `normalize_workflow_for_run`
unchanged with an empty warnings list — normalization is idempotent on
already-normalized input. -/
theorem c4_normalize_identity_on_canonical (source : List Char)
    (base_dir : Option (List Char)) (fs : FS)
    (h : _looks_like_v1_workflow source = true) :
    normalize_workflow_for_run source base_dir fs = .ok ⟨source, []⟩ := by
  simp [normalize_workflow_for_run, h]

/-- Witness for C4 at a concrete canonical text. -/
theorem c4_normalize_identity_on_canonical_witness :
    _looks_like_v1_workflow
        "toolcall tool name=a1111_txt2img id=images prompt=\"cat\"".data = true ∧
    normalize_workflow_for_run
        "toolcall tool name=a1111_txt2img id=images prompt=\"cat\"".data none [] =
      .ok ⟨"toolcall tool name=a1111_txt2img id=images prompt=\"cat\"".data, []⟩ :=
  ⟨rfl, c4_normalize_identity_on_canonical _ none [] rfl⟩

/-- C10: every `run_workflow` result, success or failure, has a non-empty
log whose first line is the `run_dir=<run directory>` header; all runner
output and error lines come after it. -/
theorem c10_log_starts_with_run_dir_header
    (outputs_root run_name timestamp runnerOut : List Char)
    (runnerExc : Option (List Char)) (pngs : List (List Char)) :
    ∃ rest,
      (run_workflow outputs_root run_name timestamp runnerOut runnerExc pngs).log_lines =
        ("run_dir=".data ++ _make_run_dir outputs_root run_name timestamp) :: rest := by
  cases runnerExc with
  | some e => exact ⟨_, rfl⟩
  | none =>
    by_cases h : (sortLex pngs).isEmpty <;> simp [run_workflow, h]

/-- C2 is false as stated: the returned log begins with the `run_dir=`
header line, so for a runner that writes `"a\nb\n"` and raises `boom` the
`log_lines` are not `["a", "b", "ERROR: boom"]` but carry the header first. -/
theorem c2_counterexample :
    (run_workflow "out".data "job".data "20240101-000000-000001".data "a\nb\n".data
        (some "boom".data) []).log_lines =
      ["run_dir=out/run-20240101-000000-000001-job".data, "a".data, "b".data,
        "ERROR: boom".data] ∧
    (run_workflow "out".data "job".data "20240101-000000-000001".data "a\nb\n".data
        (some "boom".data) []).log_lines.head? ≠ some "a".data :=
  ⟨rfl, by decide⟩

/-- C2 amended: for a runner that writes `"a\nb\n"` and then raises, the
result has `success = false` and its `log_lines` equal the `run_dir=` header
line followed by `["a", "b"]` and one `ERROR:` line with the message. -/
theorem c2_amended_log_capture (outputs_root run_name timestamp err : List Char)
    (pngs : List (List Char)) :
    (run_workflow outputs_root run_name timestamp "a\nb\n".data (some err) pngs).success
        = false ∧
    (run_workflow outputs_root run_name timestamp "a\nb\n".data (some err) pngs).log_lines =
      ["run_dir=".data ++ _make_run_dir outputs_root run_name timestamp,
        "a".data, "b".data, "ERROR: ".data ++ err] :=
  ⟨rfl, rfl⟩

/-- C5 (code bug): the loose parser substitutes the word-delimited tokens
also inside double-quoted strings, so the extractor returns `"a True story"`
for a payload whose string literal wrote `"a true story"` — quoted string
contents are not preserved. -/
theorem c5_quoted_string_contents_rewritten :
    _extract_payload_dict
        "set payload = \x7b\"prompt\": \"a true story\"\x7d".data none [] =
      .ok [("prompt".data, Value.str "a True story".data)] ∧
    _parse_loose_json "\x7b\"prompt\": \"a true story\"\x7d".data ≠
      [("prompt".data, Value.str "a true story".data)] := by
  refine ⟨rfl, ?_⟩
  intro h
  have h2 : Value.str "a True story".data = Value.str "a true story".data :=
    congrArg (fun l => (l.headD ("".data, Value.null)).2) h
  injection h2 with h3
  exact absurd h3 (by decide)

theorem resolve_themes_ok_of_readable (text : List Char) (bd : Option (List Char)) (fs : FS)
    (hfs : readableFS fs) :
    ∃ r, _resolve_themes_config text bd fs = .ok r := by
  unfold _resolve_themes_config
  split
  · exact ⟨_, rfl⟩
  · split
    · exact ⟨_, rfl⟩
    · split
      · exact ⟨_, rfl⟩
      · rename_i hlook
        exact absurd hlook (hfs _)
      · split
        · exact ⟨_, rfl⟩
        · exact ⟨_, rfl⟩
        · exact ⟨_, rfl⟩

/-- C6 is false as stated: a themes file that exists but cannot be read or
decoded is outside the `json.JSONDecodeError` handler, so the extractor
propagates the exception instead of returning an empty mapping. -/
theorem c6_counterexample :
    _extract_payload_dict
        "set payload = themes.alpha\nset input_config = \"themes.json\"".data
        (some "base".data) [("base/themes.json".data, FileContent.unreadable)] =
      .error .osError := rfl

/-- C6 amended: the extractor never raises provided every existing themes
file is readable, and each local failure yields the empty mapping: a missing
`set payload` assignment, an object-literal parse error, a missing themes
indirection (or missing/unreadable-as-JSON file resolved to `none`), and a
missing or non-object theme key. -/
theorem c6_extractor_fail_soft (text : List Char) (bd : Option (List Char)) (fs : FS) :
    (readableFS fs → ∃ d, _extract_payload_dict text bd fs = .ok d) ∧
    (_extract_set_rhs text "payload".data = none →
      _extract_payload_dict text bd fs = .ok []) ∧
    (∀ v, literalEvalTop true (wordSub "null".data "None".data
        (wordSub "false".data "False".data (wordSub "true".data "True".data v))) = none →
      _parse_loose_json v = []) ∧
    (∀ rhs, _extract_set_rhs text "payload".data = some rhs →
      startsWithL "\x7b".data (pyStrip rhs) = false →
      startsWithL "themes.".data (pyStrip rhs) = true →
      _resolve_themes_config text bd fs = .ok none →
      _extract_payload_dict text bd fs = .ok []) ∧
    (∀ rhs themes, _extract_set_rhs text "payload".data = some rhs →
      startsWithL "\x7b".data (pyStrip rhs) = false →
      startsWithL "themes.".data (pyStrip rhs) = true →
      _resolve_themes_config text bd fs = .ok (some themes) →
      dictGet themes ((pyStrip rhs).drop 7) = none →
      _extract_payload_dict text bd fs = .ok []) ∧
    (∀ rhs themes v, _extract_set_rhs text "payload".data = some rhs →
      startsWithL "\x7b".data (pyStrip rhs) = false →
      startsWithL "themes.".data (pyStrip rhs) = true →
      _resolve_themes_config text bd fs = .ok (some themes) →
      dictGet themes ((pyStrip rhs).drop 7) = some v →
      (∀ entries, v ≠ Value.dict entries) →
      _extract_payload_dict text bd fs = .ok []) := by
  refine ⟨?_, ?_, ?_, ?_, ?_, ?_⟩
  · intro hfs
    obtain ⟨r, hr⟩ := resolve_themes_ok_of_readable text bd fs hfs
    cases hs : _extract_set_rhs text "payload".data with
    | none => exact ⟨[], by simp [_extract_payload_dict, hs]⟩
    | some rhs =>
      by_cases hb : startsWithL "\x7b".data (pyStrip rhs) = true
      · exact ⟨_parse_loose_json (pyStrip rhs), by simp [_extract_payload_dict, hs, hb]⟩
      · by_cases ht : startsWithL "themes.".data (pyStrip rhs) = true
        · cases r with
          | none => exact ⟨[], by simp [_extract_payload_dict, hs, hb, ht, hr]⟩
          | some themes =>
            cases hd : dictGet themes ((pyStrip rhs).drop 7) with
            | none => exact ⟨[], by simp [_extract_payload_dict, hs, hb, ht, hr, hd]⟩
            | some v =>
              cases v with
              | str s => exact ⟨[], by simp [_extract_payload_dict, hs, hb, ht, hr, hd]⟩
              | int n => exact ⟨[], by simp [_extract_payload_dict, hs, hb, ht, hr, hd]⟩
              | bool b => exact ⟨[], by simp [_extract_payload_dict, hs, hb, ht, hr, hd]⟩
              | null => exact ⟨[], by simp [_extract_payload_dict, hs, hb, ht, hr, hd]⟩
              | list items => exact ⟨[], by simp [_extract_payload_dict, hs, hb, ht, hr, hd]⟩
              | dict entries =>
                exact ⟨entries, by simp [_extract_payload_dict, hs, hb, ht, hr, hd]⟩
        · exact ⟨[], by simp [_extract_payload_dict, hs, hb, ht]⟩
  · intro h
    simp [_extract_payload_dict, h]
  · intro v hv
    simp [_parse_loose_json, hv]
  · intro rhs h1 h2 h3 h4
    simp [_extract_payload_dict, h1, h2, h3, h4]
  · intro rhs themes h1 h2 h3 h4 h5
    simp [_extract_payload_dict, h1, h2, h3, h4, h5]
  · intro rhs themes v h1 h2 h3 h4 h5 h6
    cases v with
    | dict entries => exact absurd rfl (h6 entries)
    | str s => simp [_extract_payload_dict, h1, h2, h3, h4, h5]
    | int n => simp [_extract_payload_dict, h1, h2, h3, h4, h5]
    | bool b => simp [_extract_payload_dict, h1, h2, h3, h4, h5]
    | null => simp [_extract_payload_dict, h1, h2, h3, h4, h5]
    | list items => simp [_extract_payload_dict, h1, h2, h3, h4, h5]

/-- Witness for C6 amended: a concrete themes reference over an empty (hence
readable) filesystem, a concrete unparseable object literal, and a concrete
themes file whose theme key maps to a non-object value. -/
theorem c6_extractor_fail_soft_witness :
    (∃ d, _extract_payload_dict "set payload = themes.a".data none [] = .ok d) ∧
    _parse_loose_json "\x7bbad".data = [] ∧
    _extract_payload_dict
        "set payload = themes.alpha\nset input_config = \"t.json\"".data
        (some "base".data)
        [("base/t.json".data, FileContent.text "\x7b\"alpha\": 5\x7d".data)] =
      .ok [] :=
  ⟨(c6_extractor_fail_soft "set payload = themes.a".data none []).1
      (fun p h => by simp [fsLookup] at h),
    (c6_extractor_fail_soft [] none []).2.2.1 "\x7bbad".data rfl,
    (c6_extractor_fail_soft
        "set payload = themes.alpha\nset input_config = \"t.json\"".data
        (some "base".data)
        [("base/t.json".data, FileContent.text "\x7b\"alpha\": 5\x7d".data)]).2.2.2.2.2
      "themes.alpha".data [("alpha".data, Value.int 5)] (Value.int 5)
      rfl rfl rfl rfl rfl (fun entries h => nomatch h)⟩

theorem startsWith_ne_nil {c : Char} {p l : List Char}
    (h : startsWithL (c :: p) l = true) : l ≠ [] := by
  cases l with
  | nil => simp [startsWithL] at h
  | cons x xs => simp

theorem rstrip_of_getLast {l : List Char} {c : Char} (hc : isPyWs c = false)
    (h : l.getLast? = some c) : rstripL l = l := by
  induction l with
  | nil => simp at h
  | cons x xs ih =>
    cases xs with
    | nil =>
      simp at h
      subst h
      simp [rstripL, hc]
    | cons y ys =>
      rw [List.getLast?_cons_cons] at h
      have hys := ih h
      have hstep : rstripL (x :: y :: ys) =
          match rstripL (y :: ys) with
          | [] => if isPyWs x = true then [] else [x]
          | r => x :: r := rfl
      rw [hstep, hys]

theorem quoted_shape (v : Value) :
    _quoted v = ('"' :: ((pyStr v).flatMap fun c =>
      if c = '"' then ['\\', '"'] else [c])) ++ ['"'] := by
  simp [_quoted]

theorem legacy_line_getLast (payload : List (List Char × Value)) :
    (legacy_to_v1_line payload).getLast? = some '"' := by
  have h2 : (_quoted (dictGetD payload "sampler_name".data (.str "Euler a".data))).getLast?
      = some '"' := by
    rw [quoted_shape]
    exact List.getLast?_concat _
  have hne : _quoted (dictGetD payload "sampler_name".data (.str "Euler a".data)) ≠ [] := by
    intro hx
    rw [hx] at h2
    simp at h2
  calc (legacy_to_v1_line payload).getLast?
      = (_quoted (dictGetD payload "sampler_name".data (.str "Euler a".data))).getLast? := by
        simp only [legacy_to_v1_line]
        exact List.getLast?_append_of_ne_nil _ hne
    _ = some '"' := h2

theorem lstrip_of_head {c : Char} {p l : List Char} (hc : isPyWs c = false)
    (h : startsWithL (c :: p) l = true) : lstripL l = l := by
  cases l with
  | nil => simp [startsWithL] at h
  | cons x xs =>
    simp only [startsWithL, Bool.decide_and, Bool.and_eq_true, decide_eq_true_eq] at h
    obtain ⟨h1, _⟩ := h
    subst h1
    simp [lstripL, List.dropWhile_cons, hc]

theorem startsWith_self_append (p l : List Char) : startsWithL p (p ++ l) = true := by
  induction p with
  | nil => rfl
  | cons c cs ih => simp [startsWithL, ih]

theorem legacy_line_canonical (payload : List (List Char × Value)) :
    isCanonicalLine (legacy_to_v1_line payload) = true := by
  have hsplit : ("toolcall tool name=a1111_txt2img id=images prompt=").data =
      "toolcall tool".data ++ " name=a1111_txt2img id=images prompt=".data := by decide
  have hsw : startsWithL "toolcall tool".data (legacy_to_v1_line payload) = true := by
    simp only [legacy_to_v1_line, hsplit, List.append_assoc]
    exact startsWith_self_append _ _
  unfold isCanonicalLine pyStrip
  rw [lstrip_of_head (by decide) hsw]
  rw [rstrip_of_getLast (by decide) (legacy_line_getLast payload)]
  exact hsw

theorem rstrip_cons_shape (c : Char) (l : List Char) :
    rstripL (c :: l) = [] ∨ ∃ t, rstripL (c :: l) = c :: t := by
  cases h : rstripL l with
  | nil =>
    by_cases hc : isPyWs c = true
    · left; simp [rstripL, h, hc]
    · right
      refine ⟨[], ?_⟩
      simp [rstripL, h, hc]
  | cons y ys =>
    right
    exact ⟨y :: ys, by simp [rstripL, h]⟩

theorem hash_line_not_canonical (l : List Char) :
    isCanonicalLine ('#' :: l) = false := by
  unfold isCanonicalLine pyStrip
  rw [show lstripL ('#' :: l) = '#' :: l from by simp [lstripL, List.dropWhile_cons, isPyWs]]
  rcases rstrip_cons_shape '#' l with h | ⟨t, h⟩ <;> rw [h] <;> simp [startsWithL]

theorem splitlinesGo_noNl (s : List Char) : ∀ cur, NoNl s →
    splitlinesGo cur s = if cur.reverse ++ s = [] then [] else [cur.reverse ++ s] := by
  induction s with
  | nil =>
    intro cur _
    cases cur <;> simp [splitlinesGo]
  | cons c s' ih =>
    intro cur h
    have hc := h c (by simp)
    have hs' : NoNl s' := fun d hd => h d (by simp [hd])
    rw [show splitlinesGo cur (c :: s') = splitlinesGo (c :: cur) s' from by
      simp [splitlinesGo, hc.1, hc.2]]
    rw [ih (c :: cur) hs']
    simp

theorem splitlinesGo_break (s : List Char) (hs : NoNl s) : ∀ cur (t : List Char),
    splitlinesGo cur (s ++ '\n' :: t) = (cur.reverse ++ s) :: splitlinesGo [] t := by
  induction s with
  | nil =>
    intro cur t
    simp [splitlinesGo]
  | cons c s' ih =>
    intro cur t
    have hc := hs c (by simp)
    have hs' : NoNl s' := fun d hd => hs d (by simp [hd])
    rw [List.cons_append]
    rw [show splitlinesGo cur (c :: (s' ++ '\n' :: t)) =
        splitlinesGo (c :: cur) (s' ++ '\n' :: t) from by
      simp [splitlinesGo, hc.1, hc.2]]
    rw [ih hs' (c :: cur) t]
    simp

set_option maxRecDepth 20000 in
set_option maxHeartbeats 2000000 in
/-- C3 is false as stated: a legacy payload whose prompt string carries an
escaped newline followed by the canonical token is quoted without escaping
the newline, so the emitted text contains two canonical tool-call lines,
not exactly one. -/
theorem c3_counterexample :
    _looks_like_v1_workflow
        "set payload = \x7b\"prompt\": \"x\\ntoolcall tool\"\x7d".data = false ∧
    (normalize_workflow_for_run
        "set payload = \x7b\"prompt\": \"x\\ntoolcall tool\"\x7d".data none []).map
      (fun nw => canonicalLineCount nw.normalized_text) = .ok 2 :=
  ⟨rfl, rfl⟩

set_option maxRecDepth 20000 in
set_option maxHeartbeats 2000000 in
/-- C3 amended: for every non-canonical workflow text, the normalized text
is the canonical tool-call line rendered field-by-field from the extracted
payload with the documented defaults (plus an optional trailing checkpoint
comment); it is exactly one canonical tool-call line whenever the rendered
line and any preserved checkpoint value contain no line-break characters —
an unescaped newline inside a string field is the only way to get more; and
the claim's concrete payload yields the expected single line with zero
warnings. -/
theorem c3_legacy_single_canonical_line :
    (∀ (source : List Char) (bd : Option (List Char)) (fs : FS),
      _looks_like_v1_workflow source = false →
      (normalize_workflow_for_run source bd fs).map NormalizedWorkflow.normalized_text =
        (_extract_payload_dict source bd fs).map legacy_rendered) ∧
    (∀ payload : List (List Char × Value), NoNl (legacy_to_v1_line payload) →
      (∀ ck, _extract_model_checkpoint payload = some ck → NoNl ck) →
      canonicalLineCount (legacy_rendered payload) = 1) ∧
    normalize_workflow_for_run
        "set payload = \x7b\"prompt\":\"cat\",\"width\":512,\"height\":512,\"steps\":20,\"cfg_scale\":5,\"seed\":123,\"batch_size\":2,\"sampler_name\":\"DPM++\"\x7d".data
        none [] =
      .ok ⟨"toolcall tool name=a1111_txt2img id=images prompt=\"cat\" negative=\"\" width=512 height=512 steps=20 cfg=5 seed=123 n=2 sampler=\"DPM++\"".data,
        []⟩ := by
  refine ⟨?_, ?_, rfl⟩
  · intro source bd fs h
    cases he : _extract_payload_dict source bd fs <;>
      simp [normalize_workflow_for_run, h, he, Except.map]
  · intro payload hline hck
    unfold legacy_rendered
    cases hc : _extract_model_checkpoint payload with
    | none =>
      have hne : legacy_to_v1_line payload ≠ [] := by
        intro hx
        have hg := legacy_line_getLast payload
        rw [hx] at hg
        simp at hg
      unfold canonicalLineCount splitlinesL
      rw [splitlinesGo_noNl _ [] hline]
      simp [hne, List.countP_cons, legacy_line_canonical payload]
    | some ck =>
      have hckn : NoNl ck := hck ck hc
      have hlit : NoNl ("# legacy sd_model_checkpoint=").data := by decide
      have hcomment : NoNl ("# legacy sd_model_checkpoint=".data ++ ck) := by
        intro c hm
        rcases List.mem_append.1 hm with hm | hm
        · exact hlit c hm
        · exact hckn c hm
      have hcne : "# legacy sd_model_checkpoint=".data ++ ck ≠ [] := by
        rw [show ("# legacy sd_model_checkpoint=").data =
            '#' :: (" legacy sd_model_checkpoint=").data from rfl, List.cons_append]
        simp
      have hcf : isCanonicalLine ("# legacy sd_model_checkpoint=".data ++ ck) = false := by
        rw [show ("# legacy sd_model_checkpoint=").data =
            '#' :: (" legacy sd_model_checkpoint=").data from rfl, List.cons_append]
        exact hash_line_not_canonical _
      unfold canonicalLineCount splitlinesL
      dsimp only
      rw [List.append_assoc, List.cons_append]
      rw [splitlinesGo_break _ hline [] _]
      rw [splitlinesGo_noNl _ [] hcomment]
      simp [hcne, List.countP_cons, legacy_line_canonical payload]
      exact hcf

set_option maxRecDepth 20000 in
set_option maxHeartbeats 2000000 in
/-- Witness for C3 amended: a concrete non-canonical text for the first
part, and a concrete newline-free payload for the single-line count. -/
theorem c3_legacy_single_canonical_line_witness :
    (normalize_workflow_for_run "set payload = themes.a".data none []).map
        NormalizedWorkflow.normalized_text =
      (_extract_payload_dict "set payload = themes.a".data none []).map legacy_rendered ∧
    canonicalLineCount (legacy_rendered [("prompt".data, Value.str "cat".data)]) = 1 :=
  ⟨c3_legacy_single_canonical_line.1 "set payload = themes.a".data none [] rfl,
   c3_legacy_single_canonical_line.2.1 [("prompt".data, Value.str "cat".data)]
     (by decide) (fun ck h => nomatch h)⟩
